import Mathlib

/-!
Verification of the dentry-cache core of `src/qlib/kernel/fs/dirent.rs`.

The Rust code is shallowly embedded as a state monad over an explicit heap
of dirent nodes.  `Dirent` handles (which are `Arc` pointers in Rust) become
node ids (`Nat`); pointer identity (`Arc::ptr_eq`) becomes id equality,
which is faithful because every node carries a globally unique `NewUID`.
`Weak` children references become node ids whose upgrade succeeds exactly
when the id is still present in the heap.  The backing inode layer
(`Inode`, `MountSource`, watch sets — external collaborators that are not
part of this repository's dirent core) is modelled from the spec's §6
contract as a small map-based store with error-injection knobs, so that
theorems can exercise both the success and the failure paths of every
backend call.  `panic!`/`assert!` in the source become the `Res.fatal`
outcome, which is distinct from every recoverable `Res.err` result.
-/

/-- POSIX-style error codes used by the dirent core (spec §6). -/
inductive SysErr where
  | ENOENT | EEXIST | ENOTDIR | EISDIR | EBUSY | EPERM | EINVAL
  | EXDEV | ENOTEMPTY | EADDRINUSE | EACCES
deriving DecidableEq, Repr

/-- Outcome of an embedded operation: success, a recoverable POSIX error,
or a fatal abort (Rust `assert!`/`panic!`/`unwrap` failure). -/
inductive Res (α : Type) where
  | ok : α → Res α
  | err : SysErr → Res α
  | fatal : String → Res α
deriving DecidableEq, Repr

/-- Embeds `InterDirent` (dirent.rs:1240-1248).  `Inode` is a handle (id)
into the backend inode store; `Parent` is the strong parent link (node id);
`Children` is the name → weak-child map, as an association list of node
ids; `mounted` is the mount-boundary flag. -/
structure InterDirent where
  Inode : Nat
  Name : String
  Parent : Option Nat
  Children : List (String × Nat)
  mounted : Bool
deriving DecidableEq, Repr

/-- Modelled from the spec: the per-inode attributes the dirent core reads
from the backing node (stable attr `IsDir`/`IsSymlink`, the identity of the
backing mount for `EXDEV` checks, the results of `CheckPermission` for the
two masks the core uses — write+execute and write-only — and the
`UnstableAttr` fields consumed by the sticky check). -/
structure InodeData where
  isDir : Bool
  isSymlink : Bool
  mountSource : Nat
  permWE : Bool
  permW : Bool
  sticky : Bool
  ownerUID : Nat
deriving DecidableEq, Repr

/-- Modelled from the spec: the backing-store capability of §6
(`lookup(name)`, `create`, `rename`, `remove`).  `dirs ino name` is the
directory content map; its value is the pair (name the backend labels the
returned dirent with, child inode) — normally the label equals the looked
up name, and a mismatch is exactly what trips the `walk` assert.  The
`*Err` fields inject backend failures; the `*Calls` counters record that
the corresponding backend operation was invoked. -/
structure Backend where
  inodes : Nat → Option InodeData
  dirs : Nat → String → Option (String × Nat)
  nextIno : Nat
  createErr : Option SysErr
  renameErr : Option SysErr
  removeErr : Option SysErr
  keep : Bool
  createCalls : Nat
  renameCalls : Nat
  removeCalls : Nat

/-- Modelled from the spec: outbound calls to a backing node's watch set
(`notify`, `markUnlinked`, `unpin`), recorded in order. -/
inductive Event where
  | notify (ino : Nat) (name : String) (mask : Nat) (cookie : Nat)
  | markUnlinked (ino : Nat)
  | unpin (ino : Nat) (dirent : Nat)
deriving DecidableEq, Repr

/-- The whole machine state: the dirent heap (`nodes`, with `nextId` the
`NewUID` counter), the backend, the set of extended references held by the
mount source, the watch-set call log, the `EnableInotify` configuration
flag, and the `NewInotifyCookie` counter. -/
structure FS where
  nodes : Nat → Option InterDirent
  nextId : Nat
  backend : Backend
  extended : List Nat
  events : List Event
  enableInotify : Bool
  nextCookie : Nat

/-- Modelled from the spec: the execution context ("task") — effective
uid for the sticky check and whether `CAP_FOWNER` is held. -/
structure QTask where
  euid : Nat
  capFowner : Bool
deriving DecidableEq, Repr

/-- Inotify event masks (linux_def values). -/
def IN_ATTRIB : Nat := 4
def IN_MOVED_FROM : Nat := 64
def IN_MOVED_TO : Nat := 128
def IN_CREATE : Nat := 256
def IN_DELETE : Nat := 512
def IN_MOVE_SELF : Nat := 2048
def IN_ISDIR : Nat := 1073741824

/-- The id of the static `NEGATIVE_DIRENT` sentinel (dirent.rs:41-43).
Real node ids are allocated from 1 up. -/
def negativeDirentId : Nat := 0

/-- State-and-error monad over `FS`; the carrier of every embedded
operation. -/
def M (α : Type) : Type := FS → Res α × FS

instance : Monad M where
  pure a := fun s => (Res.ok a, s)
  bind m f := fun s =>
    match m s with
    | (Res.ok a, s') => f a s'
    | (Res.err e, s') => (Res.err e, s')
    | (Res.fatal msg, s') => (Res.fatal msg, s')

/-- Returns a recoverable POSIX error. -/
def throwE {α : Type} (e : SysErr) : M α := fun s => (Res.err e, s)

/-- Aborts fatally — the image of Rust `assert!`/`panic!`/`unwrap`. -/
def fatalE {α : Type} (msg : String) : M α := fun s => (Res.fatal msg, s)

/-- Reads the whole state. -/
def getFS : M FS := fun s => (Res.ok s, s)

/-- Applies a pure state transformer. -/
def modifyFS (f : FS → FS) : M Unit := fun s => (Res.ok (), f s)

/-- Runs `m` but reifies a recoverable error into the result, mirroring a
Rust `match` on a `Result` value; fatal aborts still propagate.  State
changes made before the error are kept, as in the source. -/
def attempt {α : Type} (m : M α) : M (Res α) := fun s =>
  match m s with
  | (Res.ok a, s') => (Res.ok (Res.ok a), s')
  | (Res.err e, s') => (Res.ok (Res.err e), s')
  | (Res.fatal msg, s') => (Res.fatal msg, s')

/-- Dereferences a `Dirent` handle.  A dangling id cannot arise from the
embedded operations (Rust `Arc` handles are always live); it is mapped to
a fatal abort so that no theorem can exploit an unfaithful default. -/
def getNode (id : Nat) : M InterDirent := fun s =>
  match s.nodes id with
  | some nd => (Res.ok nd, s)
  | none => (Res.fatal "dangling dirent", s)

/-- Reads the attributes of a backend inode (`StableAttr` etc.). -/
def getInodeData (ino : Nat) : M InodeData := fun s =>
  match s.backend.inodes ino with
  | some d => (Res.ok d, s)
  | none => (Res.fatal "dangling inode", s)

/-- Pointwise heap update. -/
def upd (f : Nat → Option InterDirent) (i : Nat) (v : InterDirent) :
    Nat → Option InterDirent :=
  fun j => if j = i then some v else f j

/-- Lookup in a children map (`BTreeMap::get`). -/
def chLookup (l : List (String × Nat)) (n : String) : Option Nat :=
  List.lookup n l

/-- Removal from a children map (`BTreeMap::remove`). -/
def chErase (l : List (String × Nat)) (n : String) : List (String × Nat) :=
  l.filter (fun p => !(n == p.1))

/-- Insertion into a children map (`BTreeMap::insert`), replacing any
entry under the same name. -/
def chInsert (l : List (String × Nat)) (n : String) (id : Nat) :
    List (String × Nat) :=
  (n, id) :: chErase l n

/-- Sets a node's `Parent` field. -/
def setParentFS (s : FS) (id : Nat) (p : Option Nat) : FS :=
  match s.nodes id with
  | none => s
  | some nd => { s with nodes := upd s.nodes id { nd with Parent := p } }

/-- Sets a node's `Name` field. -/
def setNameFS (s : FS) (id : Nat) (n : String) : FS :=
  match s.nodes id with
  | none => s
  | some nd => { s with nodes := upd s.nodes id { nd with Name := n } }

/-- Sets a node's `mounted` flag. -/
def setMountedFS (s : FS) (id : Nat) (b : Bool) : FS :=
  match s.nodes id with
  | none => s
  | some nd => { s with nodes := upd s.nodes id { nd with mounted := b } }

/-- Embeds `RemoveChild` / `Children.remove(name)` (dirent.rs:373-375). -/
def removeChildFS (s : FS) (id : Nat) (n : String) : FS :=
  match s.nodes id with
  | none => s
  | some nd =>
    { s with nodes := upd s.nodes id { nd with Children := chErase nd.Children n } }

/-- Inserts into a node's children map (`Children.insert`). -/
def insertChildFS (s : FS) (id : Nat) (n : String) (cid : Nat) : FS :=
  match s.nodes id with
  | none => s
  | some nd =>
    { s with nodes := upd s.nodes id { nd with Children := chInsert nd.Children n cid } }

/-- Allocates a fresh dirent node (`Dirent::New`, dirent.rs:102-114): the
given backing inode and name, no parent, empty children, not mounted. -/
def allocNode (name : String) (ino : Nat) : M Nat := fun s =>
  (Res.ok s.nextId,
    { s with
      nodes := upd s.nodes s.nextId ⟨ino, name, none, [], false⟩
      nextId := s.nextId + 1 })

/-- Weak-reference upgrade: the static negative sentinel is always live;
any other id is live exactly when it is still in the heap. -/
def upgradeOk (s : FS) (id : Nat) : Bool :=
  id == negativeDirentId || (s.nodes id).isSome

/-- Embeds `GetCacheChild` (dirent.rs:277-288): the cached child under
`name`, if the weak entry upgrades. -/
def GetCacheChild (s : FS) (selfId : Nat) (name : String) : Option Nat :=
  match s.nodes selfId with
  | none => none
  | some nd =>
    match chLookup nd.Children name with
    | some cid => if upgradeOk s cid then some cid else none
    | none => none

/-- Embeds `IsNegative` (dirent.rs:290-292). -/
def IsNegative (id : Nat) : Bool := id == negativeDirentId

/-- Embeds `AddChild` (dirent.rs:377-389): asserts the child has no
parent, sets its parent to `selfId`, then inserts it; returns the prior
entry under that name (the `BTreeMap::insert` result). -/
def AddChild (selfId : Nat) (name : String) (childId : Nat) :
    M (Option Nat) := do
  let cnd ← getNode childId
  if cnd.Parent.isSome then
    fatalE "Add child request the child has no parent"
  else do
    modifyFS (fun s => setParentFS s childId (some selfId))
    -- addChild (dirent.rs:395-412): the re-assertion that the child now
    -- belongs to `self` holds by construction here; the insertion result
    -- is the old entry.
    let pnd ← getNode selfId
    let old := chLookup pnd.Children name
    modifyFS (fun s => insertChildFS s selfId name childId)
    pure old

/-- Embeds `walk` (dirent.rs:294-363), resolving one component under
`selfId` with ceiling `rootId`. -/
def walk (t : QTask) (rootId selfId : Nat) (name : String) : M Nat := do
  let nd ← getNode selfId
  let idat ← getInodeData nd.Inode
  if !idat.isDir then throwE SysErr.ENOTDIR
  else if name = "" ∨ name = "." then pure selfId
  else if name = ".." then
    if selfId = rootId then pure selfId
    else
      match nd.Parent with
      | none => pure selfId
      | some p => pure p
  else do
    let s ← getFS
    match GetCacheChild s selfId name with
    | some cd =>
      if IsNegative cd then throwE SysErr.ENOENT
      else
        -- Revalidation is hardwired off (dirent.rs:328 `let revalidate =
        -- false`), so `mounted || !revalidate` is always true and the
        -- cached dirent is returned; the dead revalidation arm is omitted.
        pure cd
    | none => do
      -- `remove == true`: purge the stale entry before consulting the
      -- backend (dirent.rs:341-343).
      modifyFS (fun s => removeChildFS s selfId name)
      let s' ← getFS
      match s'.backend.dirs nd.Inode name with
      | none =>
        -- backend lookup ENOENT propagates (negative caching is
        -- commented out in the source, dirent.rs:348-352)
        throwE SysErr.ENOENT
      | some (claimed, cino) => do
        -- the backend constructs the returned dirent with its own label
        let cid ← allocNode claimed cino
        if !(claimed == name) then fatalE "lookup get mismatch name"
        else do
          let _ ← AddChild selfId name cid
          pure cid

/-- Embeds `Walk` (dirent.rs:365-371): `walk` under the RENAME read lock
(a no-op in this sequential embedding). -/
def Walk (t : QTask) (rootId selfId : Nat) (name : String) : M Nat :=
  walk t rootId selfId name

/-- Modelled from the spec: backend file creation (§6 `create`).  On
success a fresh non-directory inode is allocated and linked under the
parent inode; `createErr` injects a failing backend.  Every invocation
bumps `createCalls`. -/
def backendCreate (isDir : Bool) (dirIno : Nat) (name : String) : M Nat :=
  fun s =>
    let b := s.backend
    match b.createErr with
    | some e =>
      (Res.err e, { s with backend := { b with createCalls := b.createCalls + 1 } })
    | none =>
      (Res.ok b.nextIno,
        { s with backend :=
          { b with
            inodes := fun i =>
              if i = b.nextIno then
                some ⟨isDir, false, 0, true, true, false, 0⟩
              else b.inodes i
            dirs := fun i n =>
              if i = dirIno ∧ n = name then some (name, b.nextIno) else b.dirs i n
            nextIno := b.nextIno + 1
            createCalls := b.createCalls + 1 } })

/-- Modelled from the spec: backend `remove` (§6).  On success the name is
unlinked from the parent inode's content map; `removeErr` injects a
failure that leaves the backend content untouched.  Every invocation bumps
`removeCalls`. -/
def backendRemove (dirIno : Nat) (name : String) : M Unit := fun s =>
  let b := s.backend
  match b.removeErr with
  | some e =>
    (Res.err e, { s with backend := { b with removeCalls := b.removeCalls + 1 } })
  | none =>
    (Res.ok (),
      { s with backend :=
        { b with
          dirs := fun i n =>
            if i = dirIno ∧ n = name then none else b.dirs i n
          removeCalls := b.removeCalls + 1 } })

/-- Modelled from the spec: backend `rename` (§6), moving
`oldParentIno/oldName` to `newParentIno/newName`; `renameErr` injects a
failure.  Every invocation bumps `renameCalls`.  The `exist` overwrite
flag is passed through as in the source but needs no distinct behavior in
the map-based model (an insert overwrites either way). -/
def backendRename (oldParentIno : Nat) (oldName : String) (newParentIno : Nat)
    (newName : String) (renamedIno : Nat) (exist : Bool) : M Unit := fun s =>
  let b := s.backend
  match b.renameErr with
  | some e =>
    (Res.err e, { s with backend := { b with renameCalls := b.renameCalls + 1 } })
  | none =>
    (Res.ok (),
      { s with backend :=
        { b with
          dirs := fun i n =>
            if i = newParentIno ∧ n = newName then some (newName, renamedIno)
            else if i = oldParentIno ∧ n = oldName then none
            else b.dirs i n
          renameCalls := b.renameCalls + 1 } })

/-- Appends a watch-set `Notify` call if `EnableInotify` is set, mirroring
the `SHARESPACE.config.read().EnableInotify` gate around every
notification in the source. -/
def notifyIf (ino : Nat) (name : String) (mask cookie : Nat) : M Unit :=
  fun s =>
    (Res.ok (),
      { s with events :=
        s.events ++ (if s.enableInotify then [Event.notify ino name mask cookie] else []) })

/-- Appends the `MarkUnlinked` watch-set call under the inotify gate. -/
def markUnlinkedIf (ino : Nat) : M Unit := fun s =>
  (Res.ok (),
    { s with events :=
      s.events ++ (if s.enableInotify then [Event.markUnlinked ino] else []) })

/-- Appends the `Unpin` watch-set call under the inotify gate. -/
def unpinIf (ino : Nat) (dirent : Nat) : M Unit := fun s =>
  (Res.ok (),
    { s with events :=
      s.events ++ (if s.enableInotify then [Event.unpin ino dirent] else []) })

/-- Appends an `Unpin` watch-set call unconditionally — the cross-parent
`Rename` issues its unpin outside the inotify gate (dirent.rs:945). -/
def unpinRaw (ino : Nat) (dirent : Nat) : M Unit := fun s =>
  (Res.ok (), { s with events := s.events ++ [Event.unpin ino dirent] })

/-- Embeds `ExtendReference` (dirent.rs:1152-1158): the mount source's
`Keep` policy decides whether the node is pinned. -/
def ExtendReference (id : Nat) : M Unit := fun s =>
  (Res.ok (),
    { s with extended := if s.backend.keep then id :: s.extended else s.extended })

/-- Embeds `DropExtendedReference` (dirent.rs:1160-1163). -/
def DropExtendedReference (id : Nat) : M Unit := fun s =>
  (Res.ok (), { s with extended := s.extended.erase id })

/-- Pure form of `DropExtendedReference` used inside `flush`. -/
def dropExtFS (s : FS) (id : Nat) : FS :=
  { s with extended := s.extended.erase id }

/-- Embeds `flush` (dirent.rs:651-669) as one fuel-indexed recursion:
`Sum.inl id` flushes the node `id` (recursing into every still-live child
and then purging the expired names); `Sum.inr ids` walks a list of live
children, flushing each and dropping its extended reference.  Fuel only
bounds the recursion depth; every theorem either supplies ample fuel or
hypothesises enough of it. -/
def flushAux : Nat → FS → Sum Nat (List Nat) → FS
  | 0, s, _ => s
  | fuel + 1, s, Sum.inl id =>
    match s.nodes id with
    | none => s
    | some nd =>
      let live := nd.Children.filterMap
        (fun p => if (s.nodes p.2).isSome then some p.2 else none)
      let expired := nd.Children.filterMap
        (fun p => if (s.nodes p.2).isSome then none else some p.1)
      let s1 := flushAux fuel s (Sum.inr live)
      expired.foldl (fun acc n => removeChildFS acc id n) s1
  | fuel + 1, s, Sum.inr [] => s
  | fuel + 1, s, Sum.inr (id :: rest) =>
    flushAux fuel (dropExtFS (flushAux fuel s (Sum.inl id)) id) (Sum.inr rest)

/-- Embeds `flush` on one dirent. -/
def flushD (fuel : Nat) (s : FS) (id : Nat) : FS := flushAux fuel s (Sum.inl id)

/-- `flush` as a monadic action. -/
def flushM (fuel : Nat) (id : Nat) : M Unit :=
  modifyFS (fun s => flushD fuel s id)

/-- Embeds `IsMountPoint` (dirent.rs:671-675): mounted, or the root. -/
def IsMountPoint (id : Nat) : M Bool := do
  let nd ← getNode id
  pure (nd.mounted || nd.Parent.isNone)

/-- Embeds `exists` (dirent.rs:414-419): a `walk` that maps any
recoverable error to `false`.  (Named `existsD`; `exists` cannot be a Lean
identifier.) -/
def existsD (t : QTask) (rootId selfId : Nat) (name : String) : M Bool :=
  fun s =>
    match walk t rootId selfId name s with
    | (Res.ok _, s') => (Res.ok true, s')
    | (Res.err _, s') => (Res.ok false, s')
    | (Res.fatal msg, s') => (Res.fatal msg, s')

/-- Embeds `Create` (dirent.rs:421-449): `EEXIST` if the name resolves,
otherwise backend create, attach the new dirent to the children map,
apply the extended-reference policy and notify `IN_CREATE`.  Returns the
attached dirent (the Rust code returns the `File` wrapping it). -/
def Create (t : QTask) (rootId selfId : Nat) (name : String) : M Nat := do
  let ex ← existsD t rootId selfId name
  if ex then throwE SysErr.EEXIST
  else do
    let nd ← getNode selfId
    let cino ← backendCreate false nd.Inode name
    let cid ← allocNode name cino
    let _ ← AddChild selfId name cid
    ExtendReference cid
    notifyIf nd.Inode name IN_CREATE 0
    pure cid

/-- Embeds `genericCreate` (dirent.rs:451-466). -/
def genericCreate (t : QTask) (rootId selfId : Nat) (name : String)
    (create : M Unit) : M Unit := do
  let ex ← existsD t rootId selfId name
  if ex then throwE SysErr.EEXIST
  else do
    modifyFS (fun s => removeChildFS s selfId name)
    create

/-- Embeds `CreateDirectory` (dirent.rs:522-541): the notification and the
cache eviction happen regardless of the backend result, which is then
returned. -/
def CreateDirectory (t : QTask) (rootId selfId : Nat) (name : String) :
    M Unit :=
  genericCreate t rootId selfId name (do
    let nd ← getNode selfId
    let ret ← attempt (backendCreate true nd.Inode name)
    notifyIf nd.Inode name (IN_ISDIR ||| IN_CREATE) 0
    modifyFS (fun s => removeChildFS s selfId name)
    match ret with
    | Res.ok _ => pure ()
    | Res.err e => throwE e
    | Res.fatal msg => fatalE msg)

/-- Embeds `checkSticky` (dirent.rs:1089-1120). -/
def checkSticky (t : QTask) (selfId victimId : Nat) : M Unit := do
  let nd ← getNode selfId
  let idat ← getInodeData nd.Inode
  if !idat.sticky then pure ()
  else if idat.ownerUID = t.euid then pure ()
  else do
    let vnd ← getNode victimId
    let vdat ← getInodeData vnd.Inode
    if vdat.ownerUID = t.euid then pure ()
    else if t.capFowner then pure ()
    else throwE SysErr.EPERM

/-- Embeds `mayDelete` (dirent.rs:1079-1087): the sticky check, then a
root victim is `EBUSY`. -/
def mayDelete (t : QTask) (selfId victimId : Nat) : M Unit := do
  checkSticky t selfId victimId
  let vnd ← getNode victimId
  if vnd.Parent.isNone then throwE SysErr.EBUSY else pure ()

/-- Embeds `Inode::CheckPermission` for the two masks the dirent core
uses: write+execute (`wantExec = true`) and write-only. -/
def checkPermission (d : InodeData) (wantExec : Bool) : M Unit :=
  if (if wantExec then d.permWE else d.permW) then pure ()
  else throwE SysErr.EACCES

/-- Embeds `Mount` (dirent.rs:677-693): refused on symlinks with
`ENOENT`; otherwise a fresh node with the same name, the given backing
inode and `mounted = true` replaces the entry in the parent's children
map.  The `Parent().unwrap()` of the source is a fatal abort when there is
no parent. -/
def Mount (selfId : Nat) (ino : Nat) : M Nat := do
  let idat ← getInodeData ino
  if idat.isSymlink then throwE SysErr.ENOENT
  else do
    let nd ← getNode selfId
    match nd.Parent with
    | none => fatalE "Mount requires a parent"
    | some parent => do
      let rid ← allocNode nd.Name ino
      modifyFS (fun s => setMountedFS s rid true)
      let _ ← AddChild parent nd.Name rid
      pure rid

/-- Embeds `UnMount` (dirent.rs:695-709): re-attach `replaceId` under its
own name in the parent's children map via `AddChild`, abort fatally if no
prior entry existed there, then clear the `mounted` flag. -/
def UnMount (selfId replaceId : Nat) : M Unit := do
  let nd ← getNode selfId
  match nd.Parent with
  | none => fatalE "unmount required the parent is not none"
  | some parent => do
    let rnd ← getNode replaceId
    let old ← AddChild parent rnd.Name replaceId
    match old with
    | none => fatalE "mount must mount over an existing dirent"
    | some _ => do
      modifyFS (fun s => setMountedFS s selfId false)
      pure ()

/-- Embeds `Remove` (dirent.rs:711-755): resolve the victim, `EISDIR` on a
directory (or a trailing-slash path), `EBUSY` on a mount point, backend
remove, then the `IN_ATTRIB` notification, cache-entry drop, extended
reference drop, `MarkUnlinked`/`Unpin` and the parent `IN_DELETE`
notification.  (The explicit `drop(child)` of the source is refcount
bookkeeping with no observable effect here.) -/
def Remove (t : QTask) (rootId selfId : Nat) (name : String)
    (dirPath : Bool) : M Unit := do
  let nd ← getNode selfId
  let child ← Walk t rootId selfId name
  let cnd ← getNode child
  let cdat ← getInodeData cnd.Inode
  if cdat.isDir then throwE SysErr.EISDIR
  else if dirPath then throwE SysErr.EISDIR
  else do
    let mp ← IsMountPoint child
    if mp then throwE SysErr.EBUSY
    else do
      backendRemove nd.Inode name
      notifyIf cnd.Inode "" IN_ATTRIB 0
      modifyFS (fun s => removeChildFS s selfId name)
      DropExtendedReference child
      markUnlinkedIf cnd.Inode
      unpinIf cnd.Inode child
      notifyIf nd.Inode name IN_DELETE 0
      pure ()

/-- Embeds `RemoveDirectory` (dirent.rs:757-795): `.` is `EINVAL`, `..` is
`ENOTEMPTY`, a non-directory victim is `ENOTDIR`, a mount point is
`EBUSY`; then backend remove, cache drop, extended-reference drop and the
unlink notifications. -/
def RemoveDirectory (t : QTask) (rootId selfId : Nat) (name : String) :
    M Unit := do
  let nd ← getNode selfId
  if name = "." then throwE SysErr.EINVAL
  else if name = ".." then throwE SysErr.ENOTEMPTY
  else do
    let child ← Walk t rootId selfId name
    let cnd ← getNode child
    let cdat ← getInodeData cnd.Inode
    if !cdat.isDir then throwE SysErr.ENOTDIR
    else do
      let mp ← IsMountPoint child
      if mp then throwE SysErr.EBUSY
      else do
        backendRemove nd.Inode name
        modifyFS (fun s => removeChildFS s selfId name)
        DropExtendedReference child
        markUnlinkedIf cnd.Inode
        unpinIf cnd.Inode child
        notifyIf nd.Inode name (IN_ISDIR ||| IN_DELETE) 0
        pure ()

/-- Embeds `fullName` (dirent.rs:198-223) as a pure, fuel-indexed
recursion over the parent chain: `"/"` for the designated root, the bare
name for an unreachable top, otherwise the parent's full name joined with
`"/"` — except that a parent name of `"/"` is not doubled.  Returns the
name and whether `rootId` was reached. -/
def fullName (fuel : Nat) (s : FS) (selfId rootId : Nat) :
    Res (String × Bool) :=
  match fuel with
  | 0 => Res.fatal "fullName fuel"
  | fuel + 1 =>
    if selfId = rootId then Res.ok ("/", true)
    else
      match s.nodes selfId with
      | none => Res.fatal "dangling dirent"
      | some nd =>
        match nd.Parent with
        | none => Res.ok (nd.Name, false)
        | some p =>
          match fullName fuel s p rootId with
          | Res.ok (pName, reach) =>
            if pName = "/" then Res.ok (pName ++ nd.Name, reach)
            else Res.ok (pName ++ "/" ++ nd.Name, reach)
          | Res.err e => Res.err e
          | Res.fatal msg => Res.fatal msg

/-- Embeds `FullName` (dirent.rs:198-202): `fullName` under the RENAME
read lock (a no-op here). -/
def FullName (fuel : Nat) (s : FS) (selfId rootId : Nat) :
    Res (String × Bool) :=
  fullName fuel s selfId rootId

/-- Embeds `DescendantOf` (dirent.rs:242-258) with fuel bounding the
parent-chain ascent. -/
def DescendantOf (fuel : Nat) (s : FS) (dId pId : Nat) : Res Bool :=
  match fuel with
  | 0 => Res.fatal "DescendantOf fuel"
  | fuel + 1 =>
    if dId = pId then Res.ok true
    else
      match s.nodes dId with
      | none => Res.fatal "dangling dirent"
      | some nd =>
        match nd.Parent with
        | none => Res.ok false
        | some par => DescendantOf fuel s par pId

/-- Embeds the upward cycle-check loop at the top of `Rename`
(dirent.rs:815-830): ascend from `childId`; finding `oldParentId` as the
parent of a node named `oldName` yields `true` (the `EINVAL` case);
reaching a parentless node yields `false`. -/
def renameLoop (fuel : Nat) (s : FS) (oldParentId : Nat) (oldName : String)
    (childId : Nat) : Res Bool :=
  match fuel with
  | 0 => Res.fatal "renameLoop fuel"
  | fuel + 1 =>
    match s.nodes childId with
    | none => Res.fatal "dangling dirent"
    | some nd =>
      match nd.Parent with
      | none => Res.ok false
      | some p =>
        if p = oldParentId ∧ nd.Name = oldName then Res.ok true
        else renameLoop fuel s oldParentId oldName p

/-- Lifts a pure `Res` computation into the monad. -/
def liftRes {α : Type} (r : Res α) : M α := fun s => (r, s)

/-- Embeds `renameOfOneDirent` (dirent.rs:952-1060), the same-parent
rename: write+execute permission on the parent, resolve the source,
may-delete and mount-point gates, write permission on a renamed
directory, resolve-and-gate any existing destination, backend rename,
then in-place name update, children-map move, the three inotify
notifications (two with a shared cookie, the self event without one), the
extended-reference drop and the subtree flush. -/
def renameOfOneDirent (fuel : Nat) (t : QTask) (rootId parent : Nat)
    (oldName newName : String) : M Unit := do
  let pnd ← getNode parent
  let pdat ← getInodeData pnd.Inode
  checkPermission pdat true
  let renamed ← walk t rootId parent oldName
  mayDelete t parent renamed
  let mp ← IsMountPoint renamed
  if mp then throwE SysErr.EBUSY
  else do
    let rnd ← getNode renamed
    let rdat ← getInodeData rnd.Inode
    if rdat.isDir then checkPermission rdat false else pure ()
    let repl ← attempt (walk t rootId parent newName)
    let exist ←
      match repl with
      | Res.ok replaced => do
        mayDelete t parent replaced
        let rmp ← IsMountPoint replaced
        if rmp then throwE SysErr.EBUSY
        else do
          let repnd ← getNode replaced
          let repdat ← getInodeData repnd.Inode
          if !repdat.isDir && rdat.isDir then throwE SysErr.ENOTDIR
          else if repdat.isDir && !rdat.isDir then throwE SysErr.EISDIR
          else do
            DropExtendedReference replaced
            flushM fuel replaced
            pure true
      | Res.err SysErr.ENOENT => pure false
      | Res.err e => throwE e
      | Res.fatal msg => fatalE msg
    backendRename pnd.Inode oldName pnd.Inode newName rnd.Inode exist
    modifyFS (fun s => setNameFS s renamed newName)
    modifyFS (fun s => removeChildFS s parent oldName)
    modifyFS (fun s => insertChildFS s parent newName renamed)
    let ev := if rdat.isDir then IN_ISDIR else 0
    -- the inotify block (dirent.rs:1037-1054): one fresh cookie shared by
    -- the moved-from/moved-to pair, none on the self event
    modifyFS (fun s =>
      { s with
        events := s.events ++
          (if s.enableInotify then
            [Event.notify pnd.Inode oldName (ev ||| IN_MOVED_FROM) s.nextCookie,
             Event.notify pnd.Inode newName (ev ||| IN_MOVED_TO) s.nextCookie,
             Event.notify rnd.Inode "" IN_MOVE_SELF 0]
          else [])
        nextCookie := if s.enableInotify then s.nextCookie + 1 else s.nextCookie })
    DropExtendedReference renamed
    flushM fuel renamed
    pure ()

/-- Embeds `Rename` (dirent.rs:797-950).  Same-parent calls reduce to a
no-op (identical names) or to `renameOfOneDirent`; otherwise the upward
cycle check, permissions on both parents, the gates on the renamed node
(may-delete, mount point, descendant-of-renamed, directory write
permission), the destination resolution, the backend rename and the
children-map move across the two parents, the notifications, the
extended-reference drop, the watch-set unpin and the flush. -/
def Rename (fuel : Nat) (t : QTask) (rootId oldParent : Nat)
    (oldName : String) (newParent : Nat) (newName : String) : M Unit := do
  if oldParent = newParent then
    if oldName = newName then pure ()
    else renameOfOneDirent fuel t rootId oldParent oldName newName
  else do
    let s0 ← getFS
    let cyc ← liftRes (renameLoop fuel s0 oldParent oldName newParent)
    if cyc then throwE SysErr.EINVAL
    else do
      let opnd ← getNode oldParent
      let npnd ← getNode newParent
      let odat ← getInodeData opnd.Inode
      let ndat ← getInodeData npnd.Inode
      checkPermission odat true
      checkPermission ndat true
      let renamed ← walk t rootId oldParent oldName
      mayDelete t oldParent renamed
      let mp ← IsMountPoint renamed
      if mp then throwE SysErr.EBUSY
      else do
        let s1 ← getFS
        let desc ← liftRes (DescendantOf fuel s1 newParent renamed)
        if desc then throwE SysErr.EINVAL
        else do
          let rnd ← getNode renamed
          let rdat ← getInodeData rnd.Inode
          if rdat.isDir then checkPermission rdat false else pure ()
          let repl ← attempt (walk t rootId newParent newName)
          let exist ←
            match repl with
            | Res.ok replaced => do
              mayDelete t newParent replaced
              let rmp ← IsMountPoint replaced
              if rmp then throwE SysErr.EBUSY
              else do
                let repnd ← getNode replaced
                let repdat ← getInodeData repnd.Inode
                if !repdat.isDir && rdat.isDir then throwE SysErr.ENOTDIR
                else if repdat.isDir && !rdat.isDir then throwE SysErr.EISDIR
                else do
                  DropExtendedReference replaced
                  flushM fuel replaced
                  pure true
            | Res.err SysErr.ENOENT => pure false
            | Res.err e => throwE e
            | Res.fatal msg => fatalE msg
          backendRename opnd.Inode oldName npnd.Inode newName rnd.Inode exist
          modifyFS (fun s => setNameFS s renamed newName)
          modifyFS (fun s => removeChildFS s newParent newName)
          modifyFS (fun s => removeChildFS s oldParent oldName)
          modifyFS (fun s => insertChildFS s newParent newName renamed)
          let ev := if rdat.isDir then IN_ISDIR else 0
          modifyFS (fun s =>
            { s with
              events := s.events ++
                (if s.enableInotify then
                  [Event.notify opnd.Inode oldName (ev ||| IN_MOVED_FROM) s.nextCookie,
                   Event.notify npnd.Inode newName (ev ||| IN_MOVED_TO) s.nextCookie,
                   Event.notify rnd.Inode "" IN_MOVE_SELF 0]
                else [])
              nextCookie := if s.enableInotify then s.nextCookie + 1 else s.nextCookie })
          DropExtendedReference renamed
          unpinRaw rnd.Inode renamed
          flushM fuel renamed
          pure ()


/-- Executable witness that following `Parent` links upward from `start`
for exactly `n` steps lands on `target` — the explicit form of "`start` is
a descendant of `target`" used to quantify the rename cycle claim. -/
def reachesUpB (s : FS) : Nat → Nat → Nat → Bool
  | start, target, 0 => start == target
  | start, target, n + 1 =>
    match s.nodes start with
    | none => false
    | some nd =>
      match nd.Parent with
      | none => false
      | some p => reachesUpB s p target n

/-! ## Concrete states used by witnesses and counterexamples -/

/-- Builds an inode store from an association list. -/
def mkInodes (l : List (Nat × InodeData)) : Nat → Option InodeData :=
  fun i => l.lookup i

/-- Builds a dirent heap from an association list. -/
def mkNodes (l : List (Nat × InterDirent)) : Nat → Option InterDirent :=
  fun i => l.lookup i

/-- Builds a backend directory-content map from an association list. -/
def mkDirs (l : List ((Nat × String) × (String × Nat))) :
    Nat → String → Option (String × Nat) :=
  fun i n => l.lookup (i, n)

/-- A plain directory inode: permissions granted, no sticky bit. -/
def dirIno : InodeData := ⟨true, false, 0, true, true, false, 0⟩

/-- A plain regular-file inode. -/
def fileIno : InodeData := ⟨false, false, 0, true, true, false, 0⟩

/-- A symlink inode. -/
def symlinkIno : InodeData := ⟨false, true, 0, true, true, false, 0⟩

/-- A task with uid 0 and no CAP_FOWNER. -/
def t0 : QTask := ⟨0, false⟩

/-- State A: root node 1 (directory, inode 1) with one regular-file child
`f` (node 2, inode 2), both cached and present in the backend. -/
def backendA : Backend :=
  { inodes := mkInodes [(1, dirIno), (2, fileIno)]
    dirs := mkDirs [((1, "f"), ("f", 2))]
    nextIno := 3, createErr := none, renameErr := none, removeErr := none
    keep := true, createCalls := 0, renameCalls := 0, removeCalls := 0 }

/-- See `backendA`. -/
def fsA : FS :=
  { nodes := mkNodes [(1, ⟨1, "/", none, [("f", 2)], false⟩),
                      (2, ⟨2, "f", some 1, [], false⟩)]
    nextId := 3, backend := backendA, extended := [], events := []
    enableInotify := true, nextCookie := 0 }

/-- State B: the spec §8 scenario — root 1, directory `a` (node 2),
directory `a/b` (node 3), all cached. -/
def backendB : Backend :=
  { inodes := mkInodes [(1, dirIno), (2, dirIno), (3, dirIno)]
    dirs := mkDirs [((1, "a"), ("a", 2)), ((2, "b"), ("b", 3))]
    nextIno := 4, createErr := none, renameErr := none, removeErr := none
    keep := true, createCalls := 0, renameCalls := 0, removeCalls := 0 }

/-- See `backendB`. -/
def fsB : FS :=
  { nodes := mkNodes [(1, ⟨1, "/", none, [("a", 2)], false⟩),
                      (2, ⟨2, "a", some 1, [("b", 3)], false⟩),
                      (3, ⟨3, "b", some 2, [], false⟩)]
    nextId := 4, backend := backendB, extended := [], events := []
    enableInotify := true, nextCookie := 0 }

/-- State C: root 1 with directory child `m` (node 2, inode 2); inode 4 is
a directory available as a mount backing, inode 5 a symlink. -/
def backendC : Backend :=
  { inodes := mkInodes [(1, dirIno), (2, dirIno), (4, dirIno), (5, symlinkIno)]
    dirs := mkDirs [((1, "m"), ("m", 2))]
    nextIno := 6, createErr := none, renameErr := none, removeErr := none
    keep := true, createCalls := 0, renameCalls := 0, removeCalls := 0 }

/-- See `backendC`. -/
def fsC : FS :=
  { nodes := mkNodes [(1, ⟨1, "/", none, [("m", 2)], false⟩),
                      (2, ⟨2, "m", some 1, [], false⟩)]
    nextId := 3, backend := backendC, extended := [], events := []
    enableInotify := true, nextCookie := 0 }

/-- The state after mounting inode 4 over `/m` in `fsA`-style state C:
node 3 is the mounted replacement. -/
def fsC' : FS := (Mount 2 4 fsC).2

/-- State D: a three-deep chain `/x/c1/c2` (nodes 2, 3, 4 — all
directories) below root 1, for the rename-into-own-descendant claim. -/
def backendD : Backend :=
  { inodes := mkInodes [(1, dirIno), (2, dirIno), (3, dirIno), (4, dirIno)]
    dirs := mkDirs [((1, "x"), ("x", 2)), ((2, "c1"), ("c1", 3)),
                    ((3, "c2"), ("c2", 4))]
    nextIno := 5, createErr := none, renameErr := none, removeErr := none
    keep := true, createCalls := 0, renameCalls := 0, removeCalls := 0 }

/-- See `backendD`. -/
def fsD : FS :=
  { nodes := mkNodes [(1, ⟨1, "/", none, [("x", 2)], false⟩),
                      (2, ⟨2, "x", some 1, [("c1", 3)], false⟩),
                      (3, ⟨3, "c1", some 2, [("c2", 4)], false⟩),
                      (4, ⟨4, "c2", some 3, [], false⟩)]
    nextId := 5, backend := backendD, extended := [], events := []
    enableInotify := true, nextCookie := 0 }

/-- State E: root 1 with a regular-file child `f` (node 4), a mounted
directory child `md` (node 5), a detached mounted node 2 named `mm`, a
parentless pre-mount node 3 named `mm`, and a backend entry `w` whose
lookup label (`v`) does not match the looked-up name. -/
def backendE : Backend :=
  { inodes := mkInodes [(1, dirIno), (2, dirIno), (3, dirIno),
                        (4, fileIno), (5, dirIno)]
    dirs := mkDirs [((1, "w"), ("v", 2)), ((1, "f"), ("f", 4)),
                    ((1, "md"), ("md", 5))]
    nextIno := 6, createErr := none, renameErr := none, removeErr := none
    keep := true, createCalls := 0, renameCalls := 0, removeCalls := 0 }

/-- See `backendE`. -/
def fsE : FS :=
  { nodes := mkNodes [(1, ⟨1, "/", none, [("f", 4), ("md", 5)], false⟩),
                      (2, ⟨2, "mm", some 1, [], true⟩),
                      (3, ⟨3, "mm", none, [], false⟩),
                      (4, ⟨4, "f", some 1, [], false⟩),
                      (5, ⟨5, "md", some 1, [], true⟩)]
    nextId := 6, backend := backendE, extended := [], events := []
    enableInotify := true, nextCookie := 0 }

/-- State E with an injected backend remove failure (`EPERM`). -/
def fsF : FS :=
  { fsE with backend := { backendE with removeErr := some SysErr.EPERM } }

/-! ## Helper lemmas -/

@[simp] theorem M_bind_apply {α β : Type} (m : M α) (f : α → M β) (s : FS) :
    (m >>= f) s =
      match m s with
      | (Res.ok a, s') => f a s'
      | (Res.err e, s') => (Res.err e, s')
      | (Res.fatal msg, s') => (Res.fatal msg, s') := rfl

@[simp] theorem M_pure_apply {α : Type} (a : α) (s : FS) :
    (pure a : M α) s = (Res.ok a, s) := rfl

@[simp] theorem throwE_apply {α : Type} (e : SysErr) (s : FS) :
    (throwE e : M α) s = (Res.err e, s) := rfl

@[simp] theorem fatalE_apply {α : Type} (msg : String) (s : FS) :
    (fatalE msg : M α) s = (Res.fatal msg, s) := rfl

@[simp] theorem getFS_apply (s : FS) : getFS s = (Res.ok s, s) := rfl

@[simp] theorem modifyFS_apply (f : FS → FS) (s : FS) :
    modifyFS f s = (Res.ok (), f s) := rfl

@[simp] theorem attempt_apply {α : Type} (m : M α) (s : FS) :
    attempt m s =
      match m s with
      | (Res.ok a, s') => (Res.ok (Res.ok a), s')
      | (Res.err e, s') => (Res.ok (Res.err e), s')
      | (Res.fatal msg, s') => (Res.fatal msg, s') := rfl

@[simp] theorem upd_same (f : Nat → Option InterDirent) (i : Nat)
    (v : InterDirent) : upd f i v i = some v := by simp [upd]

theorem upd_ne (f : Nat → Option InterDirent) (i j : Nat)
    (v : InterDirent) (h : j ≠ i) : upd f i v j = f j := by simp [upd, h]

theorem chErase_of_lookup_none (l : List (String × Nat)) (n : String)
    (h : chLookup l n = none) : chErase l n = l := by
  induction l with
  | nil => rfl
  | cons p t ih =>
    simp only [chLookup, List.lookup] at h
    by_cases hn : n = p.1
    · simp [hn, beq_self_eq_true] at h
    · have hb : (n == p.1) = false := beq_eq_false_iff_ne.mpr hn
      simp only [hb] at h
      simp [chErase, hb, List.filter] at ih ⊢
      exact ih h

@[simp] theorem chLookup_chInsert_same (l : List (String × Nat)) (n : String)
    (id : Nat) : chLookup (chInsert l n id) n = some id := by
  simp [chLookup, chInsert, List.lookup]

theorem chLookup_chErase (l : List (String × Nat)) (n m : String)
    (h : m ≠ n) : chLookup (chErase l n) m = chLookup l m := by
  induction l with
  | nil => rfl
  | cons p t ih =>
    by_cases hn : n = p.1
    · have hb : (m == p.1) = false := by
        subst hn; exact beq_eq_false_iff_ne.mpr h
      simp [chErase, chLookup, List.lookup, List.filter, hn, hb] at ih ⊢
      simpa [chErase, chLookup] using ih
    · have hb : (n == p.1) = false := beq_eq_false_iff_ne.mpr hn
      by_cases hm : m = p.1
      · simp [chErase, chLookup, List.lookup, List.filter, hb, hm]
      · have hbm : (m == p.1) = false := beq_eq_false_iff_ne.mpr hm
        simp [chErase, chLookup, List.lookup, List.filter, hb, hbm] at ih ⊢
        simpa [chErase, chLookup] using ih

theorem chLookup_chInsert_other (l : List (String × Nat)) (n m : String)
    (id : Nat) (h : m ≠ n) :
    chLookup (chInsert l n id) m = chLookup l m := by
  have hb : (m == n) = false := beq_eq_false_iff_ne.mpr h
  simp [chInsert, chLookup, List.lookup, hb]
  simpa [chLookup] using chLookup_chErase l n m h

@[simp] theorem liftRes_apply {α : Type} (r : Res α) (s : FS) :
    liftRes r s = (r, s) := rfl

theorem chLookup_chErase_self (l : List (String × Nat)) (n : String) :
    chLookup (chErase l n) n = none := by
  induction l with
  | nil => rfl
  | cons p t ih =>
    by_cases hn : n = p.1
    · have hb : (n == p.1) = true := beq_iff_eq.mpr hn
      simpa [chErase, chLookup, List.filter, hb] using ih
    · have hb : (n == p.1) = false := beq_eq_false_iff_ne.mpr hn
      simpa [chErase, chLookup, List.lookup, List.filter, hb] using ih

/-- C4 amended: `Walk` with `""` or `"."` returns the starting node itself
when the starting node's inode is a directory; when it is not a
directory, `Walk` fails `ENOTDIR` for every component name — the
directory requirement is checked before the `""`/`"."` short-circuit, not
only for ordinary names. -/
theorem C4_walk_self_names (t : QTask) (s : FS) (rootId selfId : Nat)
    (nd : InterDirent) (idat : InodeData)
    (h1 : s.nodes selfId = some nd)
    (h2 : s.backend.inodes nd.Inode = some idat) :
    (idat.isDir = true →
      Walk t rootId selfId "" s = (Res.ok selfId, s) ∧
      Walk t rootId selfId "." s = (Res.ok selfId, s)) ∧
    (idat.isDir = false →
      ∀ name : String, (Walk t rootId selfId name s).1 = Res.err SysErr.ENOTDIR) := by
  constructor
  · intro hdir
    constructor <;> simp [Walk, walk, getNode, getInodeData, h1, h2, hdir]
  · intro hdir name
    simp [Walk, walk, getNode, getInodeData, h1, h2, hdir]

/-- C4 counterexample: on the concrete state `fsA`, node 2 is a
regular-file starting node, and `Walk` with `"."` fails `ENOTDIR`
instead of returning the node itself as the claim states. -/
theorem C4_walk_dot_enotdir_cex :
    (Walk t0 1 2 "." fsA).1 = Res.err SysErr.ENOTDIR ∧
    (Walk t0 1 2 "." fsA).1 ≠ Res.ok 2 := by decide

/-- C4 witness. -/
theorem C4_walk_self_names_witness :
    Walk t0 1 1 "" fsA = (Res.ok 1, fsA) ∧ Walk t0 1 1 "." fsA = (Res.ok 1, fsA) := by
  have h := C4_walk_self_names t0 fsA 1 1 ⟨1, "/", none, [("f", 2)], false⟩ dirIno
    (by decide) (by decide)
  exact h.1 (by decide)

/-- C5 amended: for a directory starting node, `Walk ".."` returns the
node itself when it equals the caller-supplied root, the true parent for
a non-root starting node that has one, and the node itself for a
parentless non-root node; a non-directory starting node fails `ENOTDIR`
(see the C4 theorem) rather than returning its parent. -/
theorem C5_walk_dotdot (t : QTask) (s : FS) (rootId selfId : Nat)
    (nd : InterDirent) (idat : InodeData)
    (h1 : s.nodes selfId = some nd)
    (h2 : s.backend.inodes nd.Inode = some idat)
    (hdir : idat.isDir = true) :
    (selfId = rootId → Walk t rootId selfId ".." s = (Res.ok selfId, s)) ∧
    (selfId ≠ rootId → ∀ p, nd.Parent = some p →
      Walk t rootId selfId ".." s = (Res.ok p, s)) ∧
    (selfId ≠ rootId → nd.Parent = none →
      Walk t rootId selfId ".." s = (Res.ok selfId, s)) := by
  refine ⟨fun hroot => ?_, fun hroot p hp => ?_, fun hroot hp => ?_⟩
  · subst hroot
    simp [Walk, walk, getNode, getInodeData, h1, h2, hdir]
  · simp [Walk, walk, getNode, getInodeData, h1, h2, hdir, hroot, hp]
  · simp [Walk, walk, getNode, getInodeData, h1, h2, hdir, hroot, hp]

/-- C5 counterexample: on `fsA`, node 2 is a non-root starting node (its
true parent is node 1), yet `Walk ".."` fails `ENOTDIR` instead of
returning the parent, because the starting node is not a directory. -/
theorem C5_walk_dotdot_cex :
    (fsA.nodes 2).map InterDirent.Parent = some (some 1) ∧
    (Walk t0 1 2 ".." fsA).1 = Res.err SysErr.ENOTDIR ∧
    (Walk t0 1 2 ".." fsA).1 ≠ Res.ok 1 := by decide

/-- C5 witness. -/
theorem C5_walk_dotdot_witness :
    Walk t0 1 1 ".." fsA = (Res.ok 1, fsA) ∧
    Walk t0 2 3 ".." fsB = (Res.ok 2, fsB) := by
  constructor
  · exact (C5_walk_dotdot t0 fsA 1 1 ⟨1, "/", none, [("f", 2)], false⟩ dirIno
      (by decide) (by decide) (by decide)).1 rfl
  · exact ((C5_walk_dotdot t0 fsB 2 3 ⟨3, "b", some 2, [], false⟩ dirIno
      (by decide) (by decide) (by decide)).2.1 (by decide) 2 rfl)

/-- C6 amended: `FullName` of a non-root node with a parent is the
parent's `FullName` joined with `"/"` and the node's name, except that
when the parent's `FullName` is already `"/"` (the parent is the
designated root) the separator is not doubled; the designated root
itself yields `"/"`. -/
theorem C6_fullname_rec (s : FS) (fuel d rootId p : Nat)
    (nd : InterDirent) (pn : String) (r : Bool)
    (h1 : s.nodes d = some nd) (h2 : nd.Parent = some p) (h3 : d ≠ rootId)
    (h4 : FullName fuel s p rootId = Res.ok (pn, r)) :
    FullName (fuel + 1) s d rootId =
      Res.ok ((if pn = "/" then pn ++ nd.Name else pn ++ "/" ++ nd.Name), r) ∧
    FullName (fuel + 1) s rootId rootId = Res.ok ("/", true) := by
  constructor
  · simp only [FullName, fullName, h1, h2, h3, if_neg h3]
    rw [show fullName fuel s p rootId = Res.ok (pn, r) from h4]
    by_cases hpn : pn = "/" <;> simp [hpn]
  · simp [FullName, fullName]

/-- C6 counterexample: on `fsA`, node 2's parent is the designated root
whose `FullName` is `"/"`; the node's `FullName` is `"/f"`, not the
claimed parent-name `++ "/" ++` own-name concatenation `"//f"`. -/
theorem C6_fullname_cex :
    FullName 3 fsA 2 1 = Res.ok ("/f", true) ∧
    FullName 3 fsA 1 1 = Res.ok ("/", true) ∧
    (fsA.nodes 2).map InterDirent.Name = some "f" ∧
    "/f" ≠ "/" ++ "/" ++ "f" := by decide

/-- C6 witness. -/
theorem C6_fullname_rec_witness :
    FullName 3 fsB 3 1 = Res.ok ("/a/b", true) ∧
    FullName 3 fsB 1 1 = Res.ok ("/", true) := by
  have h := C6_fullname_rec fsB 2 3 1 2 ⟨3, "b", some 2, [], false⟩ "/a" true
    (by decide) (by decide) (by decide) (by decide)
  refine ⟨?_, h.2⟩
  have := h.1
  simpa using this

/-- If the parent chain from `start` reaches, in `n` steps, a node whose
parent is `oldParent` and whose name is `oldName`, then the upward cycle
check of `Rename` detects the cycle (with any fuel above `n`). -/
theorem renameLoop_of_reachesUpB (s : FS) (oldParent : Nat) (oldName : String) :
    ∀ (n start fuel : Nat) (renamed : Nat) (rnd : InterDirent),
      reachesUpB s start renamed n = true →
      s.nodes renamed = some rnd →
      rnd.Parent = some oldParent →
      rnd.Name = oldName →
      n < fuel →
      renameLoop fuel s oldParent oldName start = Res.ok true := by
  intro n
  induction n with
  | zero =>
    intro start fuel renamed rnd hr h1 h2 h3 hf
    have hs : start = renamed := by
      simpa [reachesUpB] using hr
    subst hs
    match fuel, hf with
    | fuel + 1, _ =>
      simp [renameLoop, h1, h2, h3]
  | succ n ih =>
    intro start fuel renamed rnd hr h1 h2 h3 hf
    match hnd : s.nodes start with
    | none => simp [reachesUpB, hnd] at hr
    | some nd =>
      match hp : nd.Parent with
      | none => simp [reachesUpB, hnd, hp] at hr
      | some p =>
        simp only [reachesUpB, hnd, hp] at hr
        match fuel, hf with
        | fuel + 1, hf =>
          have hn : n < fuel := Nat.lt_of_succ_lt_succ hf
          simp only [renameLoop, hnd, hp]
          by_cases hc : p = oldParent ∧ nd.Name = oldName
          · simp [hc]
          · simp only [if_neg hc]
            exact ih p fuel renamed rnd hr h1 h2 h3 hn

/-- C2: when the destination parent is a descendant (at any depth,
witnessed by an `n`-step parent chain) of the node being renamed —
identified as the child of `oldParent` named `oldName` — a cross-parent
`Rename` fails with `EINVAL` and the state is returned unchanged: no
children map is touched and the backend rename is never invoked. -/
theorem C2_rename_into_descendant (fuel n : Nat) (t : QTask) (s : FS)
    (rootId oldParent newParent renamed : Nat) (oldName newName : String)
    (rnd : InterDirent)
    (hr : reachesUpB s newParent renamed n = true)
    (h1 : s.nodes renamed = some rnd)
    (h2 : rnd.Parent = some oldParent)
    (h3 : rnd.Name = oldName)
    (hne : oldParent ≠ newParent)
    (hf : n < fuel) :
    Rename fuel t rootId oldParent oldName newParent newName s =
      (Res.err SysErr.EINVAL, s) := by
  have hloop := renameLoop_of_reachesUpB s oldParent oldName n newParent fuel
    renamed rnd hr h1 h2 h3 hf
  simp [Rename, hne, hloop]

/-- C2 witness: in `fsD`, renaming `/x` (node 2) so that its new parent
is `/x/c1/c2` (node 4, two levels below the renamed directory) fails
`EINVAL` and leaves the state — children maps and backend rename counter
included — untouched. -/
theorem C2_rename_into_descendant_witness :
    reachesUpB fsD 4 2 2 = true ∧
    Rename 9 t0 1 1 "x" 4 "nn" fsD = (Res.err SysErr.EINVAL, fsD) := by
  refine ⟨by decide, ?_⟩
  exact C2_rename_into_descendant 9 2 t0 fsD 1 1 4 2 "x" "nn"
    ⟨2, "x", some 1, [("c1", 3)], false⟩ (by decide) (by decide) (by decide)
    (by decide) (by decide) (by decide)

/-- C9: the three internal invariant violations abort fatally (a
`Res.fatal`, distinct from every recoverable `Res.err`): (a) the backend
lookup during `walk` returning a node labelled with a different name than
the one requested; (b) `AddChild` called with a child that already has a
parent; (c) `UnMount` finding no existing child entry under the
replacement's name in the parent's children map. -/
theorem C9_fatal_invariants (t : QTask) (s : FS) :
    (∀ (rootId selfId : Nat) (name : String) (nd : InterDirent)
       (idat : InodeData) (claimed : String) (cino : Nat),
       s.nodes selfId = some nd →
       s.backend.inodes nd.Inode = some idat →
       idat.isDir = true →
       name ≠ "" → name ≠ "." → name ≠ ".." →
       GetCacheChild s selfId name = none →
       s.backend.dirs nd.Inode name = some (claimed, cino) →
       claimed ≠ name →
       (walk t rootId selfId name s).1 = Res.fatal "lookup get mismatch name") ∧
    (∀ (selfId childId : Nat) (name : String) (cnd : InterDirent),
       s.nodes childId = some cnd →
       cnd.Parent.isSome = true →
       (AddChild selfId name childId s).1 =
         Res.fatal "Add child request the child has no parent") ∧
    (∀ (selfId replaceId parent : Nat) (nd rnd pnd : InterDirent),
       s.nodes selfId = some nd →
       nd.Parent = some parent →
       s.nodes replaceId = some rnd →
       rnd.Parent = none →
       parent ≠ replaceId →
       s.nodes parent = some pnd →
       chLookup pnd.Children rnd.Name = none →
       (UnMount selfId replaceId s).1 =
         Res.fatal "mount must mount over an existing dirent") := by
  refine ⟨?_, ?_, ?_⟩
  · intro rootId selfId name nd idat claimed cino h1 h2 h3 hn1 hn2 hn3 hc hd hcl
    have hb : (claimed == name) = false := beq_eq_false_iff_ne.mpr hcl
    simp [walk, getNode, getInodeData, h1, h2, h3, hn1, hn2, hn3, hc,
      removeChildFS, hd, allocNode, hb, hcl]
  · intro selfId childId name cnd h1 hp
    simp [AddChild, getNode, h1, hp]
  · intro selfId replaceId parent nd rnd pnd h1 h2 h3 h4 h5 h6 h7
    simp [UnMount, getNode, h1, h2, h3, AddChild, h4, setParentFS, upd, h5,
      h6, h7, insertChildFS]

/-- C9 witness. -/
theorem C9_fatal_invariants_witness :
    (walk t0 1 1 "w" fsE).1 = Res.fatal "lookup get mismatch name" ∧
    (AddChild 1 "n" 2 fsE).1 =
      Res.fatal "Add child request the child has no parent" ∧
    (UnMount 2 3 fsE).1 =
      Res.fatal "mount must mount over an existing dirent" := by
  have h := C9_fatal_invariants t0 fsE
  refine ⟨?_, ?_, ?_⟩
  · exact h.1 1 1 "w" ⟨1, "/", none, [("f", 4), ("md", 5)], false⟩ dirIno "v" 2
      (by decide) (by decide) (by decide) (by decide) (by decide) (by decide)
      (by decide) (by decide) (by decide)
  · exact h.2.1 1 2 "n" ⟨2, "mm", some 1, [], true⟩ (by decide) (by decide)
  · exact h.2.2 2 3 1 ⟨2, "mm", some 1, [], true⟩ ⟨3, "mm", none, [], false⟩
      ⟨1, "/", none, [("f", 4), ("md", 5)], false⟩ (by decide) (by decide)
      (by decide) (by decide) (by decide) (by decide) (by decide)

/-- C8 (code bug): on state C, `Mount` of directory inode 4 over `/m`
(node 2) succeeds and substitutes a fresh node 3 — same name `m`,
`mounted = true`, backed by inode 4 — into the parent's children map, and
`Mount` of a symlink inode fails `ENOENT`, exactly as the claim states;
but the subsequent `UnMount` with the original pre-mount node 2 does not
restore the parent's entry: it aborts fatally in `AddChild`'s
"child has no parent" assert, because the pre-mount node still holds its
parent link. -/
theorem C8_mount_unmount_bug :
    (Mount 2 4 fsC).1 = Res.ok 3 ∧
    (fsC'.nodes 1).map (fun nd => chLookup nd.Children "m") = some (some 3) ∧
    (fsC'.nodes 3).map (fun nd => (nd.Name, nd.Inode, nd.mounted)) =
      some ("m", 4, true) ∧
    (Mount 2 5 fsC).1 = Res.err SysErr.ENOENT ∧
    (UnMount 3 2 fsC').1 =
      Res.fatal "Add child request the child has no parent" ∧
    (fsC'.nodes 2).map InterDirent.Parent = some (some 1) := by decide

/-- C7: `RemoveDirectory` rejects the literal `"."` with `EINVAL`, the
literal `".."` with `ENOTEMPTY`, a cached non-directory victim with
`ENOTDIR` and a cached mount-boundary victim with `EBUSY` (even an empty,
otherwise removable one), in each case returning the state unchanged — in
particular the backend remove is never invoked. -/
theorem C7_removedirectory_gates (t : QTask) (s : FS) (rootId selfId : Nat)
    (nd : InterDirent) (pdat : InodeData)
    (h1 : s.nodes selfId = some nd)
    (h2 : s.backend.inodes nd.Inode = some pdat)
    (h3 : pdat.isDir = true) :
    RemoveDirectory t rootId selfId "." s = (Res.err SysErr.EINVAL, s) ∧
    RemoveDirectory t rootId selfId ".." s = (Res.err SysErr.ENOTEMPTY, s) ∧
    (∀ (fname : String) (fcid : Nat) (fnd : InterDirent) (fdat : InodeData),
      fname ≠ "" → fname ≠ "." → fname ≠ ".." →
      chLookup nd.Children fname = some fcid → fcid ≠ 0 →
      s.nodes fcid = some fnd → s.backend.inodes fnd.Inode = some fdat →
      fdat.isDir = false →
      RemoveDirectory t rootId selfId fname s = (Res.err SysErr.ENOTDIR, s)) ∧
    (∀ (mname : String) (mcid : Nat) (mnd : InterDirent) (mdat : InodeData),
      mname ≠ "" → mname ≠ "." → mname ≠ ".." →
      chLookup nd.Children mname = some mcid → mcid ≠ 0 →
      s.nodes mcid = some mnd → s.backend.inodes mnd.Inode = some mdat →
      mdat.isDir = true → mnd.mounted = true →
      RemoveDirectory t rootId selfId mname s = (Res.err SysErr.EBUSY, s)) := by
  refine ⟨?_, ?_, ?_, ?_⟩
  · simp [RemoveDirectory, getNode, h1]
  · simp [RemoveDirectory, getNode, h1]
  · intro fname fcid fnd fdat hn1 hn2 hn3 hch hnz hfn hfi hnd
    have hz : (fcid == negativeDirentId) = false := by
      simpa [negativeDirentId] using beq_eq_false_iff_ne.mpr hnz
    simp [RemoveDirectory, Walk, walk, getNode, getInodeData, h1, h2, h3,
      hn1, hn2, hn3, GetCacheChild, hch, upgradeOk, hz, hfn, IsNegative,
      hfi, hnd, negativeDirentId, hnz]
  · intro mname mcid mnd mdat hn1 hn2 hn3 hch hnz hmn hmi hdir hmt
    have hz : (mcid == negativeDirentId) = false := by
      simpa [negativeDirentId] using beq_eq_false_iff_ne.mpr hnz
    simp [RemoveDirectory, Walk, walk, getNode, getInodeData, h1, h2, h3,
      hn1, hn2, hn3, GetCacheChild, hch, upgradeOk, hz, hmn, IsNegative,
      hmi, hdir, IsMountPoint, hmt, negativeDirentId, hnz]

/-- C7 witness. -/
theorem C7_removedirectory_gates_witness :
    RemoveDirectory t0 1 1 "." fsE = (Res.err SysErr.EINVAL, fsE) ∧
    RemoveDirectory t0 1 1 ".." fsE = (Res.err SysErr.ENOTEMPTY, fsE) ∧
    RemoveDirectory t0 1 1 "f" fsE = (Res.err SysErr.ENOTDIR, fsE) ∧
    RemoveDirectory t0 1 1 "md" fsE = (Res.err SysErr.EBUSY, fsE) := by
  have h := C7_removedirectory_gates t0 fsE 1 1
    ⟨1, "/", none, [("f", 4), ("md", 5)], false⟩ dirIno
    (by decide) (by decide) (by decide)
  refine ⟨h.1, h.2.1, ?_, ?_⟩
  · exact h.2.2.1 "f" 4 ⟨4, "f", some 1, [], false⟩ fileIno
      (by decide) (by decide) (by decide) (by decide) (by decide) (by decide)
      (by decide) (by decide)
  · exact h.2.2.2 "md" 5 ⟨5, "md", some 1, [], true⟩ dirIno
      (by decide) (by decide) (by decide) (by decide) (by decide) (by decide)
      (by decide) (by decide) (by decide)

/-- C10: when the backend remove fails inside `Remove` or
`RemoveDirectory` (on a cached, deletable victim), the error is
propagated and the cache is untouched — the dirent heap (hence every
children map), the extended references and the watch-set call log are all
unchanged, even though the backend call was made (its counter advances).
When the backend call succeeds, and only then, `Remove` drops the
victim's cache entry, releases its extended reference and issues the
notifications, in source order. -/
theorem C10_remove_backend_error (t : QTask) (s : FS) (rootId selfId : Nat)
    (nd : InterDirent) (pdat : InodeData)
    (h1 : s.nodes selfId = some nd)
    (h2 : s.backend.inodes nd.Inode = some pdat)
    (h3 : pdat.isDir = true) :
    (∀ (name : String) (fcid : Nat) (fnd : InterDirent) (fdat : InodeData)
       (e : SysErr),
      name ≠ "" → name ≠ "." → name ≠ ".." →
      chLookup nd.Children name = some fcid → fcid ≠ 0 →
      s.nodes fcid = some fnd → s.backend.inodes fnd.Inode = some fdat →
      fdat.isDir = false → fnd.mounted = false → fnd.Parent.isSome = true →
      s.backend.removeErr = some e →
      (Remove t rootId selfId name false s).1 = Res.err e ∧
      (Remove t rootId selfId name false s).2.nodes = s.nodes ∧
      (Remove t rootId selfId name false s).2.extended = s.extended ∧
      (Remove t rootId selfId name false s).2.events = s.events ∧
      (Remove t rootId selfId name false s).2.backend.removeCalls =
        s.backend.removeCalls + 1) ∧
    (∀ (name : String) (mcid : Nat) (mnd : InterDirent) (mdat : InodeData)
       (e : SysErr),
      name ≠ "" → name ≠ "." → name ≠ ".." →
      chLookup nd.Children name = some mcid → mcid ≠ 0 →
      s.nodes mcid = some mnd → s.backend.inodes mnd.Inode = some mdat →
      mdat.isDir = true → mnd.mounted = false → mnd.Parent.isSome = true →
      s.backend.removeErr = some e →
      (RemoveDirectory t rootId selfId name s).1 = Res.err e ∧
      (RemoveDirectory t rootId selfId name s).2.nodes = s.nodes ∧
      (RemoveDirectory t rootId selfId name s).2.extended = s.extended ∧
      (RemoveDirectory t rootId selfId name s).2.events = s.events ∧
      (RemoveDirectory t rootId selfId name s).2.backend.removeCalls =
        s.backend.removeCalls + 1) ∧
    (∀ (name : String) (fcid : Nat) (fnd : InterDirent) (fdat : InodeData),
      name ≠ "" → name ≠ "." → name ≠ ".." →
      chLookup nd.Children name = some fcid → fcid ≠ 0 →
      s.nodes fcid = some fnd → s.backend.inodes fnd.Inode = some fdat →
      fdat.isDir = false → fnd.mounted = false → fnd.Parent.isSome = true →
      s.backend.removeErr = none → s.enableInotify = true →
      (Remove t rootId selfId name false s).1 = Res.ok () ∧
      ((Remove t rootId selfId name false s).2.nodes selfId).map
        (fun x => chLookup x.Children name) = some none ∧
      (Remove t rootId selfId name false s).2.extended = s.extended.erase fcid ∧
      (Remove t rootId selfId name false s).2.events = s.events ++
        [Event.notify fnd.Inode "" IN_ATTRIB 0,
         Event.markUnlinked fnd.Inode,
         Event.unpin fnd.Inode fcid,
         Event.notify nd.Inode name IN_DELETE 0]) := by
  refine ⟨?_, ?_, ?_⟩
  · intro name fcid fnd fdat e hn1 hn2 hn3 hch hnz hfn hfi hfd hfm hfp he
    have hz : (fcid == negativeDirentId) = false := by
      simpa [negativeDirentId] using beq_eq_false_iff_ne.mpr hnz
    have hpn : fnd.Parent.isNone = false := by
      cases hp : fnd.Parent <;> simp_all
    refine ⟨?_, ?_, ?_, ?_, ?_⟩ <;>
      simp [Remove, Walk, walk, getNode, getInodeData, h1, h2, h3,
        hn1, hn2, hn3, GetCacheChild, hch, upgradeOk, hz, hfn, IsNegative,
        negativeDirentId, hnz, hfi, hfd, IsMountPoint, hfm, hpn,
        backendRemove, he]
  · intro name mcid mnd mdat e hn1 hn2 hn3 hch hnz hmn hmi hmd hmm hmp he
    have hz : (mcid == negativeDirentId) = false := by
      simpa [negativeDirentId] using beq_eq_false_iff_ne.mpr hnz
    have hpn : mnd.Parent.isNone = false := by
      cases hp : mnd.Parent <;> simp_all
    refine ⟨?_, ?_, ?_, ?_, ?_⟩ <;>
      simp [RemoveDirectory, Walk, walk, getNode, getInodeData, h1, h2, h3,
        hn1, hn2, hn3, GetCacheChild, hch, upgradeOk, hz, hmn, IsNegative,
        negativeDirentId, hnz, hmi, hmd, IsMountPoint, hmm, hpn,
        backendRemove, he]
  · intro name fcid fnd fdat hn1 hn2 hn3 hch hnz hfn hfi hfd hfm hfp he hen
    have hz : (fcid == negativeDirentId) = false := by
      simpa [negativeDirentId] using beq_eq_false_iff_ne.mpr hnz
    have hpn : fnd.Parent.isNone = false := by
      cases hp : fnd.Parent <;> simp_all
    refine ⟨?_, ?_, ?_, ?_⟩ <;>
      simp [Remove, Walk, walk, getNode, getInodeData, h1, h2, h3,
        hn1, hn2, hn3, GetCacheChild, hch, upgradeOk, hz, hfn, IsNegative,
        negativeDirentId, hnz, hfi, hfd, IsMountPoint, hfm, hpn,
        backendRemove, he, hen, notifyIf, markUnlinkedIf, unpinIf,
        DropExtendedReference, removeChildFS, upd, chLookup_chErase_self]

/-- C10 witness. -/
theorem C10_remove_backend_error_witness :
    (Remove t0 1 1 "f" false fsF).1 = Res.err SysErr.EPERM ∧
    (Remove t0 1 1 "f" false fsF).2.events = fsF.events ∧
    (Remove t0 1 1 "f" false fsF).2.nodes = fsF.nodes ∧
    (Remove t0 1 1 "f" false fsE).1 = Res.ok () ∧
    ((Remove t0 1 1 "f" false fsE).2.nodes 1).map
      (fun x => chLookup x.Children "f") = some none := by
  have hf := C10_remove_backend_error t0 fsF 1 1
    ⟨1, "/", none, [("f", 4), ("md", 5)], false⟩ dirIno
    (by decide) (by decide) (by decide)
  have he := C10_remove_backend_error t0 fsE 1 1
    ⟨1, "/", none, [("f", 4), ("md", 5)], false⟩ dirIno
    (by decide) (by decide) (by decide)
  have hfa := hf.1 "f" 4 ⟨4, "f", some 1, [], false⟩ fileIno SysErr.EPERM
    (by decide) (by decide) (by decide) (by decide) (by decide) (by decide)
    (by decide) (by decide) (by decide) (by decide) (by decide)
  have hea := he.2.2 "f" 4 ⟨4, "f", some 1, [], false⟩ fileIno
    (by decide) (by decide) (by decide) (by decide) (by decide) (by decide)
    (by decide) (by decide) (by decide) (by decide) (by decide) (by decide)
  exact ⟨hfa.1, hfa.2.2.2.1, hfa.2.1, hea.1, hea.2.1⟩

/-- C3: under the conditions that make `Create` succeed (directory
parent, name neither cached nor present in the backend, no injected
backend failure, fresh id and inode actually fresh), `Create` returns the
newly attached dirent (id `s.nextId`), a subsequent `Walk` of the same
name returns that same identity, and a second `Create` of the same name
fails `EEXIST`. -/
theorem C3_create_walk_eexist (t : QTask) (s : FS) (rootId p : Nat)
    (nm : String) (pnd : InterDirent) (pdat : InodeData)
    (h1 : s.nodes p = some pnd)
    (h2 : s.backend.inodes pnd.Inode = some pdat)
    (h3 : pdat.isDir = true)
    (h4 : chLookup pnd.Children nm = none)
    (h5 : s.backend.dirs pnd.Inode nm = none)
    (h6 : s.backend.createErr = none)
    (hn1 : nm ≠ "") (hn2 : nm ≠ ".") (hn3 : nm ≠ "..")
    (h8 : s.nodes s.nextId = none)
    (h9 : 0 < s.nextId)
    (h10 : pnd.Inode ≠ s.backend.nextIno) :
    (Create t rootId p nm s).1 = Res.ok s.nextId ∧
    (Walk t rootId p nm (Create t rootId p nm s).2).1 = Res.ok s.nextId ∧
    (Create t rootId p nm (Create t rootId p nm s).2).1 =
      Res.err SysErr.EEXIST := by
  have hpn : p ≠ s.nextId := by
    intro h
    rw [h, h8] at h1
    exact Option.noConfusion h1
  have hnp : s.nextId ≠ p := fun h => hpn h.symm
  have hz : (s.nextId == negativeDirentId) = false := by
    have : s.nextId ≠ 0 := Nat.pos_iff_ne_zero.mp h9
    simpa [negativeDirentId] using beq_eq_false_iff_ne.mpr this
  have hz' : s.nextId ≠ negativeDirentId := by
    simpa [negativeDirentId] using Nat.pos_iff_ne_zero.mp h9
  refine ⟨?_, ?_, ?_⟩ <;>
    simp [Create, Walk, walk, existsD, getNode, getInodeData, h1, h2, h3,
      hn1, hn2, hn3, GetCacheChild, h4, removeChildFS, upd, h5, h6,
      backendCreate, allocNode, AddChild, setParentFS, insertChildFS,
      ExtendReference, notifyIf, hpn, hnp, hz, hz', h10,
      chLookup_chInsert_same, chLookup_chErase_self, IsNegative,
      upgradeOk]

theorem flushAux_inr_nil (fuel : Nat) (s : FS) :
    flushAux fuel s (Sum.inr []) = s := by
  cases fuel <;> rfl

theorem flushD_empty (fuel : Nat) (s : FS) (id : Nat) {nd : InterDirent}
    (h : s.nodes id = some nd) (hc : nd.Children = []) :
    flushD fuel s id = s := by
  cases fuel with
  | zero => rfl
  | succ fuel => simp [flushD, flushAux, h, hc, flushAux_inr_nil]

set_option maxHeartbeats 2000000 in
/-- C1: a same-parent `Rename` of the cached directory `oldName` (node
`rid`, childless as in the `/a/b` scenario) to the fresh name `newName`
succeeds, and afterwards the parent's children map no longer contains
`oldName`, a `Walk` of `oldName` fails `ENOENT` (the backend no longer
resolves it either), a `Walk` of `newName` returns the identical node
`rid` that previously resolved under `oldName`, and that node's `Name`
field now reads `newName`. -/
theorem C1_same_parent_rename (fuel : Nat) (t : QTask) (s : FS)
    (rootId parent rid : Nat) (oldName newName : String)
    (pnd rnd : InterDirent) (pdat rdat : InodeData)
    (h1 : s.nodes parent = some pnd)
    (h2 : s.backend.inodes pnd.Inode = some pdat)
    (h3 : pdat.isDir = true)
    (h4 : pdat.permWE = true)
    (h5 : pdat.sticky = false)
    (h6 : chLookup pnd.Children oldName = some rid)
    (h7 : s.nodes rid = some rnd)
    (h8 : rid ≠ 0)
    (h9 : rnd.Parent = some parent)
    (h10 : rnd.mounted = false)
    (h11 : s.backend.inodes rnd.Inode = some rdat)
    (h12 : rdat.isDir = true)
    (h13 : rdat.permW = true)
    (h14 : rnd.Children = [])
    (h15 : chLookup pnd.Children newName = none)
    (h16 : s.backend.dirs pnd.Inode newName = none)
    (h17 : s.backend.renameErr = none)
    (h18 : oldName ≠ newName)
    (ho1 : oldName ≠ "") (ho2 : oldName ≠ ".") (ho3 : oldName ≠ "..")
    (hw1 : newName ≠ "") (hw2 : newName ≠ ".") (hw3 : newName ≠ "..")
    (hrp : rid ≠ parent) :
    (Rename fuel t rootId parent oldName parent newName s).1 = Res.ok () ∧
    ((Rename fuel t rootId parent oldName parent newName s).2.nodes parent).map
      (fun x => chLookup x.Children oldName) = some none ∧
    (Walk t rootId parent oldName
      (Rename fuel t rootId parent oldName parent newName s).2).1 =
      Res.err SysErr.ENOENT ∧
    (Walk t rootId parent newName
      (Rename fuel t rootId parent oldName parent newName s).2).1 =
      Res.ok rid ∧
    ((Rename fuel t rootId parent oldName parent newName s).2.nodes rid).map
      InterDirent.Name = some newName := by
  have hpr : parent ≠ rid := fun h => hrp h.symm
  have hzr : (rid == negativeDirentId) = false := by
    simpa [negativeDirentId] using beq_eq_false_iff_ne.mpr h8
  have hd18 : newName ≠ oldName := fun h => h18 h.symm
  refine ⟨?_, ?_, ?_, ?_, ?_⟩ <;>
    simp [Rename, renameOfOneDirent, Walk, walk, getNode, getInodeData,
      checkPermission, checkSticky, mayDelete, IsMountPoint, IsNegative,
      GetCacheChild, upgradeOk, h1, h2, h3, h4, h5, h6, h7, h8, h9, h10,
      h11, h12, h13, h15, h16, h17, h18, hd18, ho1, ho2, ho3, hw1, hw2,
      hw3, hrp, hpr, hzr, negativeDirentId, removeChildFS, insertChildFS,
      setNameFS, backendRename, DropExtendedReference, upd,
      chLookup_chErase_self, chLookup_chInsert_same, flushM,
      flushD_empty, chLookup_chErase, chLookup_chInsert_other, h14]

/-- C1 witness: the spec §8 scenario `/a/b → /a/c` on `fsB`. -/
theorem C1_same_parent_rename_witness :
    (Rename 9 t0 1 2 "b" 2 "c" fsB).1 = Res.ok () ∧
    ((Rename 9 t0 1 2 "b" 2 "c" fsB).2.nodes 2).map
      (fun x => chLookup x.Children "b") = some none ∧
    (Walk t0 1 2 "b" (Rename 9 t0 1 2 "b" 2 "c" fsB).2).1 =
      Res.err SysErr.ENOENT ∧
    (Walk t0 1 2 "c" (Rename 9 t0 1 2 "b" 2 "c" fsB).2).1 = Res.ok 3 ∧
    ((Rename 9 t0 1 2 "b" 2 "c" fsB).2.nodes 3).map InterDirent.Name =
      some "c" := by
  exact C1_same_parent_rename 9 t0 fsB 1 2 3 "b" "c"
    ⟨2, "a", some 1, [("b", 3)], false⟩ ⟨3, "b", some 2, [], false⟩
    dirIno dirIno
    (by decide) (by decide) (by decide) (by decide) (by decide) (by decide)
    (by decide) (by decide) (by decide) (by decide) (by decide) (by decide)
    (by decide) (by decide) (by decide) (by decide) (by decide) (by decide)
    (by decide) (by decide) (by decide) (by decide) (by decide) (by decide)
    (by decide)

/-- C3 witness: creating `g` under the root of `fsA`. -/
theorem C3_create_walk_eexist_witness :
    (Create t0 1 1 "g" fsA).1 = Res.ok 3 ∧
    (Walk t0 1 1 "g" (Create t0 1 1 "g" fsA).2).1 = Res.ok 3 ∧
    (Create t0 1 1 "g" (Create t0 1 1 "g" fsA).2).1 =
      Res.err SysErr.EEXIST := by
  exact C3_create_walk_eexist t0 fsA 1 1 "g"
    ⟨1, "/", none, [("f", 2)], false⟩ dirIno
    (by decide) (by decide) (by decide) (by decide) (by decide) (by decide)
    (by decide) (by decide) (by decide) (by decide) (by decide) (by decide)
